import Mathlib

/-!
Shallow embedding of the Railway-n8n-ms ad-scraper pipeline.

Two source files carry the logic under verification:
* `src/unnamed/part_003` — the Playwright scraper service: URL/content-type
  admission (`isAllowedAdImage`), size filtering (`withinSize`), the per-session
  dedup map built inside `scrapeOnce`, and the `/scrape` route validation.
* `src/server.js` — the Ads Inspector service: `classify` (tracker/ad/asset),
  `isThirdParty`, `stripWww`, `hostFromUrl`.

JavaScript strings are modelled as Lean `String`s (lists of characters); the
JS string methods used by the sources (`toLowerCase`, `startsWith`, `endsWith`,
`includes`, `slice`) are given transparent, executable models on `List Char`.
Nullable JS values are `Option`s; a thrown-and-caught exception is an
`Except.error` consumed by the catching wrapper.
-/

/-- Model of JS `String.prototype.toLowerCase` (ASCII range, which is all the
sources compare): lowercase every character. -/
def jsToLowerCase (s : String) : String :=
  ⟨s.data.map Char.toLower⟩

/-- Model of JS `String.prototype.startsWith`. -/
def jsStartsWith (s pre : String) : Bool :=
  List.isPrefixOf pre.data s.data

/-- Model of JS `String.prototype.endsWith`. -/
def jsEndsWith (s post : String) : Bool :=
  List.isSuffixOf post.data s.data

/-- Helper for `containsSubstr`: does `pat` occur at some position of the
haystack list? -/
def substrAux (pat : List Char) : List Char → Bool
  | [] => List.isPrefixOf pat []
  | c :: rest => List.isPrefixOf pat (c :: rest) || substrAux pat rest

/-- Model of JS `String.prototype.includes` (also of an unanchored
case-sensitive regex test): `pat` occurs as a contiguous substring of `s`. -/
def containsSubstr (s pat : String) : Bool :=
  substrAux pat.data s.data

/-- Modelled from the spec: the WHATWG `new URL(u)` hostname extraction used by
the sources but provided by the Node.js platform, not by this repository.
"parsing each URL's authority; any unparsable URL yields a `null` host".
A string without a `scheme://` separator fails to parse; otherwise the
authority runs to the first `/`, `?` or `#`, user-info up to the last `@` is
dropped, a `:port` suffix is dropped, and the hostname is lowercased (the URL
constructor normalizes case). -/
def parseUrlHostname (u : String) : Except Unit String :=
  match dropSchemeSep u.data with
  | none => Except.error ()
  | some rest =>
    let authority := rest.takeWhile (fun c => !(c == '/' || c == '?' || c == '#'))
    let afterUser := (authority.reverse.takeWhile (fun c => !(c == '@'))).reverse
    let host := afterUser.takeWhile (fun c => !(c == ':'))
    Except.ok ⟨host.map Char.toLower⟩
where
  dropSchemeSep : List Char → Option (List Char)
    | [] => none
    | ':' :: '/' :: '/' :: rest => some rest
    | _ :: rest => dropSchemeSep rest

/-! ## part_003 — scraper service definitions -/

/-- List `KNOWN_IMAGE_HOSTS` from `src/unnamed/part_003`. -/
def KNOWN_IMAGE_HOSTS : List String :=
  ["tpc.googlesyndication.com",
   "images.taboola.com",
   "img.taboola.com",
   "outbrainimg.com",
   "images.outbrain.com",
   "im.outbrain.com"]

/-- List `KNOWN_IFRAME_HOSTS` from `src/unnamed/part_003`. -/
def KNOWN_IFRAME_HOSTS : List String :=
  ["googlesyndication.com",
   "g.doubleclick.net",
   "doubleclick.net",
   "ad.doubleclick.net",
   "pagead2.googlesyndication.com",
   "safeframe.googlesyndication.com",
   "taboola.com",
   "trc.taboola.com",
   "outbrain.com",
   "widgets.outbrain.com"]

/-- Function `hostOf` from `src/unnamed/part_003`: `new URL(u).hostname.toLowerCase()`
with a catch-all returning `null`.  A `none` argument models JS `null`
(`new URL(null)` throws, so the catch yields `null`). -/
def hostOf (u : Option String) : Option String :=
  match u with
  | none => none
  | some s =>
    match parseUrlHostname s with
    | Except.error _ => none
    | Except.ok h => some (jsToLowerCase h)

/-- Function `isKnownImageHost` from `src/unnamed/part_003`. -/
def isKnownImageHost (host : Option String) : Bool :=
  match host with
  | none => false
  | some h => KNOWN_IMAGE_HOSTS.any (fun k => h == k || jsEndsWith h ("." ++ k))

/-- Function `isKnownIframeHost` from `src/unnamed/part_003`. -/
def isKnownIframeHost (host : Option String) : Bool :=
  match host with
  | none => false
  | some h => KNOWN_IFRAME_HOSTS.any (fun k => h == k || jsEndsWith h ("." ++ k))

/-- Extensions recognized by the `looksLikeImageExt` regex
`\.(png|jpe?g|webp|gif|avif)(?:[?#].*|$)` of `src/unnamed/part_003`. -/
def imageExts : List String :=
  ["png", "jpg", "jpeg", "webp", "gif", "avif"]

/-- After a matched extension the regex requires end of string, `?` or `#`. -/
def extTerminator : List Char → Bool
  | [] => true
  | c :: _ => c == '?' || c == '#'

/-- Does one of `imageExts` followed by a valid terminator start here? -/
def extMatchAt (cs : List Char) : Bool :=
  imageExts.any fun e =>
    cs.take e.data.length == e.data && extTerminator (cs.drop e.data.length)

/-- Scan for a `.` followed by an image extension and terminator. -/
def looksLikeImageExtAux : List Char → Bool
  | [] => false
  | '.' :: rest => extMatchAt rest || looksLikeImageExtAux rest
  | _ :: rest => looksLikeImageExtAux rest

/-- Function `looksLikeImageExt` from `src/unnamed/part_003` (the regex is
case-insensitive, hence the lowering). -/
def looksLikeImageExt (url : String) : Bool :=
  looksLikeImageExtAux (jsToLowerCase url).data

/-- Function `isAllowedAdImage` from `src/unnamed/part_003`: the admission decision for
a network response, given its URL, content type, and the URL of the frame that
requested it. -/
def isAllowedAdImage (url : String) (contentType : Option String)
    (frameUrl : Option String) : Bool :=
  if jsStartsWith url "http" = false then false
  else if (jsStartsWith (jsToLowerCase (contentType.getD "")) "image/"
            || looksLikeImageExt url)
          && isKnownImageHost (hostOf (some url)) then true
  else if jsStartsWith (jsToLowerCase (contentType.getD "")) "image/"
          && isKnownIframeHost (hostOf frameUrl) then true
  else if containsSubstr (jsToLowerCase url) "tpc.googlesyndication.com/simgad/" then true
  else false

/-- Constant `MIN_W` (= `MIN_H`) from `src/unnamed/part_003`. -/
def MIN_W : Int := 30

/-- Function `withinSize` from `src/unnamed/part_003`: both dimensions known means both
must reach the minimum; any unknown dimension passes. -/
def withinSize (w h : Option Int) (lo : Int) : Bool :=
  match w, h with
  | some w, some h => decide (lo ≤ w) && decide (lo ≤ h)
  | _, _ => true

/-- A network response observed by the `page.on('response')` handler of
`scrapeOnce` in `src/unnamed/part_003`.  `contentType` models
`headers['content-type'] || ''`; `width`/`height` model the outcome of the
external `image-size` decode of the response body (`null` when the body is
missing, shorter than 1024 bytes, undecodable, or a dimension is falsy). -/
structure NetEvent where
  url : String
  contentType : String
  frameUrl : Option String
  referer : Option String
  width : Option Int
  height : Option Int
  deriving Repr, DecidableEq

/-- A DOM-hinted candidate produced by `collectDomHintedImages` in
`src/unnamed/part_003` (`via` is `'dom:hint'` and `placement_hint` is
`'dom:banner'` as emitted by the sweep, carried as fields because the merge
code reads `rec.via` / `rec.placement_hint`). -/
structure DomHint where
  image_url : String
  via : String
  referer : Option String
  frame_url : Option String
  placement_hint : Option String
  deriving Repr, DecidableEq

/-- The record stored per creative in the `found` map of `scrapeOnce`
(`src/unnamed/part_003`). -/
structure Creative where
  image_url : String
  link_url : Option String
  alt : String
  width : Option Int
  height : Option Int
  html : Option String
  via : String
  referer : Option String
  frame_url : Option String
  placement_hint : Option String
  ad_host : Option String
  deriving Repr, DecidableEq

/-- JS `Map.prototype.set` on an insertion-ordered association list: an
existing key keeps its position and gets the new value, a new key is appended. -/
def mapSet (m : List (String × Creative)) (k : String) (v : Creative) :
    List (String × Creative) :=
  if m.any (fun p => p.1 == k) then
    m.map (fun p => if p.1 == k then (k, v) else p)
  else m ++ [(k, v)]

/-- JS `Map.prototype.has`. -/
def mapHas (m : List (String × Creative)) (k : String) : Bool :=
  m.any (fun p => p.1 == k)

/-- The frame-host alternatives of the regex
`/doubleclick|g\.doubleclick|safeframe|googlesyndication/` in `scrapeOnce`. -/
def doubleclickFrameMarks : List String :=
  ["doubleclick", "g.doubleclick", "safeframe", "googlesyndication"]

/-- The URL test `/(^|\/\/)(images|img)\.taboola\.com\//i` of `scrapeOnce`. -/
def taboolaUrlTest (u : String) : Bool :=
  jsStartsWith (jsToLowerCase u) "images.taboola.com/"
    || jsStartsWith (jsToLowerCase u) "img.taboola.com/"
    || containsSubstr (jsToLowerCase u) "//images.taboola.com/"
    || containsSubstr (jsToLowerCase u) "//img.taboola.com/"

/-- The URL test `/outbrainimg\.com|images\.outbrain\.com|im\.outbrain\.com/i`
of `scrapeOnce`. -/
def outbrainUrlTest (u : String) : Bool :=
  containsSubstr (jsToLowerCase u) "outbrainimg.com"
    || containsSubstr (jsToLowerCase u) "images.outbrain.com"
    || containsSubstr (jsToLowerCase u) "im.outbrain.com"

/-- The `placement_hint` computation of the response handler in `scrapeOnce`:
frame-host family first (sequential `if`s, a later match overwrites), then the
creative URL's own family. -/
def placementHintOf (respUrl : String) (frameUrl : Option String) : Option String :=
  let fhost := hostOf frameUrl
  let fromFrame :=
    if isKnownIframeHost fhost then
      let p1 :=
        if doubleclickFrameMarks.any
            (fun s => containsSubstr (jsToLowerCase (fhost.getD "")) s) then
          some "iframe:doubleclick"
        else none
      let p2 :=
        if containsSubstr (jsToLowerCase (fhost.getD "")) "taboola" then
          some "iframe:taboola"
        else p1
      if containsSubstr (jsToLowerCase (fhost.getD "")) "outbrain" then
        some "iframe:outbrain"
      else p2
    else none
  match fromFrame with
  | some p => some p
  | none =>
    if containsSubstr (jsToLowerCase respUrl) "tpc.googlesyndication.com/simgad/" then
      some "iframe:doubleclick"
    else if taboolaUrlTest respUrl then some "iframe:taboola"
    else if outbrainUrlTest respUrl then some "iframe:outbrain"
    else none

/-- The record that the response handler of `scrapeOnce` stores in `found`. -/
def netCreative (e : NetEvent) : Creative :=
  { image_url := e.url
    link_url := none
    alt := ""
    width := e.width
    height := e.height
    html := none
    via := "network:image"
    referer := e.referer
    frame_url := e.frameUrl
    placement_hint := placementHintOf e.url e.frameUrl
    ad_host := hostOf (some e.url) }

/-- The record that the DOM-hint fallback of `scrapeOnce` stores in `found`. -/
def domCreative (d : DomHint) : Creative :=
  { image_url := d.image_url
    link_url := none
    alt := ""
    width := none
    height := none
    html := none
    via := d.via
    referer := d.referer
    frame_url := d.frame_url
    placement_hint := d.placement_hint
    ad_host := hostOf (some d.image_url) }

/-- One step of the `page.on('response')` handler of `scrapeOnce`: admission
(`isAllowedAdImage` on the lowercased content type), then the tracker-pixel
size filter (`withinSize` with `MIN_W`), then `found.set`. -/
def ingestNet (m : List (String × Creative)) (e : NetEvent) :
    List (String × Creative) :=
  if isAllowedAdImage e.url (some (jsToLowerCase e.contentType)) e.frameUrl = false then m
  else if withinSize e.width e.height MIN_W = false then m
  else mapSet m e.url (netCreative e)

/-- One step of the DOM-hint fallback loop of `scrapeOnce`: skip empty URLs,
URLs without an image extension, `ynet.co.il`-hosted editorial images, and
URLs already present in `found`; otherwise `found.set`. -/
def ingestDom (m : List (String × Creative)) (d : DomHint) :
    List (String × Creative) :=
  if d.image_url == "" then m
  else if looksLikeImageExt d.image_url = false then m
  else if jsEndsWith ((hostOf (some d.image_url)).getD "") "ynet.co.il" then m
  else if mapHas m d.image_url then m
  else mapSet m d.image_url (domCreative d)

/-- Helper loop of `uniqBy` from `src/unnamed/part_003`: skip falsy keys and
keys already seen. -/
def uniqByGo {α : Type} (key : α → String) (seen : List String) :
    List α → List α
  | [] => []
  | x :: rest =>
    if key x == "" || seen.contains (key x) then uniqByGo key seen rest
    else x :: uniqByGo key (key x :: seen) rest

/-- Function `uniqBy` from `src/unnamed/part_003`. -/
def uniqBy {α : Type} (xs : List α) (key : α → String) : List α :=
  uniqByGo key [] xs

/-- The candidate-processing core of `scrapeOnce` in `src/unnamed/part_003`:
network responses are ingested in arrival order during the page load, the
DOM-hinted sweep runs afterwards, and the map's values pass through `uniqBy`
keyed by `image_url`.  Browser automation (navigation, scrolling, budget) is
the external RenderSession and only determines which events arrive. -/
def scrapeOnce (nets : List NetEvent) (doms : List DomHint) : List Creative :=
  uniqBy ((doms.foldl ingestDom (nets.foldl ingestNet [])).map Prod.snd)
    (fun c => c.image_url)

/-- Result of the `/scrape` route of `src/unnamed/part_003`: either the 400
`InvalidInput` rejection or the JSON payload built from `scrapeOnce`. -/
inductive ScrapeResponse where
  | invalidInput
  | ok (ads : List Creative) (pageUrl : String)
  deriving Repr, DecidableEq

/-- The route's URL validation `/^https?:\/\//i` (anchored, case-insensitive). -/
def validScrapeUrl (u : String) : Bool :=
  jsStartsWith (jsToLowerCase u) "http://" || jsStartsWith (jsToLowerCase u) "https://"

/-- The `/scrape` route handler of `src/unnamed/part_003`: a missing or
non-`http(s)://` URL is rejected with status 400 before the render session is
created; otherwise the session's events are processed by `scrapeOnce`. -/
def handleScrape (url : Option String) (nets : List NetEvent)
    (doms : List DomHint) : ScrapeResponse :=
  match url with
  | none => ScrapeResponse.invalidInput
  | some u =>
    if validScrapeUrl u = false then ScrapeResponse.invalidInput
    else ScrapeResponse.ok (scrapeOnce nets doms) u

/-! ## server.js — Ads Inspector definitions -/

/-- Function `stripWww` from `src/server.js`: `(s || '').replace(/^www\./i, '')` —
drop a leading `www.` matched case-insensitively. -/
def stripWww (s : String) : String :=
  if (s.data.take 4).map Char.toLower == "www.".data then ⟨s.data.drop 4⟩ else s

/-- Function `hostFromUrl` from `src/server.js`: `null` for a falsy argument, `null`
when the URL constructor throws, and `url.hostname || null` otherwise (an
empty hostname is falsy, hence also `null`). -/
def hostFromUrl (u : Option String) : Option String :=
  match u with
  | none => none
  | some s =>
    if s == "" then none
    else
      match parseUrlHostname s with
      | Except.error _ => none
      | Except.ok h => if h == "" then none else some h

/-- Function `isThirdParty` from `src/server.js`: `null` when either host is falsy,
else `true` unless the `www.`-stripped lowercased hosts are equal or one ends
with `'.' + other`. -/
def isThirdParty (imageHost pageHost : Option String) : Option Bool :=
  if imageHost.getD "" == "" || pageHost.getD "" == "" then none
  else
    let ih := jsToLowerCase (stripWww (imageHost.getD ""))
    let ph := jsToLowerCase (stripWww (pageHost.getD ""))
    some (!(ih == ph || jsEndsWith ih ("." ++ ph) || jsEndsWith ph ("." ++ ih)))

/-- List `trackerSignals` from `classify` in `src/server.js`. -/
def trackerSignals : List String :=
  ["px.gif", "pixel", "collect", "analytics", "beacon", "log", "viewthrough",
   "gen_204", "googleadservices", "doubleclick", "clarity.ms", "chartbeat",
   "skimresources", "ad-delivery.net", "trc.taboola", "taboola.com",
   "ib.adnxs", "pagead2.googlesyndication"]

/-- List `adSignals` from `classify` in `src/server.js`. -/
def adSignals : List String :=
  ["doubleclick", "googlesyndication", "adnxs", "pubmatic", "taboola",
   "vidazoo", "ad-delivery", "adsrvr", "adservice", "securepubads",
   "outbrain", "criteo"]

/-- The fields of a normalized ad record that `classify` in `src/server.js`
reads (`image_host`, `image_url`, `width`, `height`; `width`/`height` come
from `safeInt` and are integers or `null`). -/
structure Ad where
  image_host : Option String
  image_url : Option String
  width : Option Int
  height : Option Int
  deriving Repr, DecidableEq

/-- Function `classify` from `src/server.js`: `tracker` on a 1×1 pixel or any tracker
keyword occurring in the lowercased host/URL, else `ad` on any ad keyword,
else `asset`. -/
def classify (ad : Ad) : String :=
  let h := jsToLowerCase (ad.image_host.getD "")
  let u := jsToLowerCase (ad.image_url.getD "")
  let is1x1 := ad.width == some 1 && ad.height == some 1
  let hasTrackerHints :=
    is1x1 || trackerSignals.any (fun s => containsSubstr h s || containsSubstr u s)
  let hasAdHints := adSignals.any (fun s => containsSubstr h s || containsSubstr u s)
  if hasTrackerHints then "tracker" else if hasAdHints then "ad" else "asset"

/-! ## Helper lemmas -/

/-- Two optional strings that agree after lowercasing still agree after the
`|| ''` defaulting used throughout `classify`. -/
theorem getD_lower_congr (x y : Option String)
    (h : x.map jsToLowerCase = y.map jsToLowerCase) :
    jsToLowerCase (x.getD "") = jsToLowerCase (y.getD "") := by
  cases x <;> cases y <;> simp_all

/-! ## Claims about `classify` -/

/-- C4: a 1×1 record is classified `tracker` whatever its host and URL are. -/
theorem classify_one_by_one (h u : Option String) :
    classify ⟨h, u, some 1, some 1⟩ = "tracker" := by
  simp [classify]

/-- C4 witness: a concrete 1x1 pixel from an arbitrary host is a tracker. -/
theorem classify_one_by_one_witness :
    classify ⟨some "img.example.org", some "https://img.example.org/p.gif",
              some 1, some 1⟩ = "tracker" :=
  classify_one_by_one _ _

/-- C5: a record whose lowercased host or URL contains a tracker keyword is
classified `tracker` — in particular when it also contains an ad-network
keyword, the tracker branch wins and `ad` is never returned. -/
theorem classify_tracker_priority (ad : Ad) (s t : String)
    (hs : s ∈ trackerSignals) (ht : t ∈ adSignals)
    (h1 : containsSubstr (jsToLowerCase (ad.image_host.getD "")) s = true
          ∨ containsSubstr (jsToLowerCase (ad.image_url.getD "")) s = true)
    (h2 : containsSubstr (jsToLowerCase (ad.image_host.getD "")) t = true
          ∨ containsSubstr (jsToLowerCase (ad.image_url.getD "")) t = true) :
    classify ad = "tracker" := by
  have hany : (trackerSignals.any fun s =>
      containsSubstr (jsToLowerCase (ad.image_host.getD "")) s
        || containsSubstr (jsToLowerCase (ad.image_url.getD "")) s) = true := by
    rw [List.any_eq_true]
    exact ⟨s, hs, by rcases h1 with h | h <;> simp [h]⟩
  unfold classify
  simp [hany]

/-- C5 witness: `ads.doubleclick.net` contains `doubleclick`, which is both a
tracker keyword and an ad keyword, and the record is classified `tracker`. -/
theorem classify_tracker_priority_witness :
    classify ⟨some "ads.doubleclick.net",
              some "https://ads.doubleclick.net/ad-image", some 300, some 250⟩
      = "tracker" :=
  classify_tracker_priority _ "doubleclick" "doubleclick" (by decide) (by decide)
    (Or.inl (by decide)) (Or.inl (by decide))

/-- C2 counterexample: two records agreeing on `image_host` and `image_url`
but differing in width/height get different categories (1×1 forces `tracker`),
so category is not a function of host and URL alone. -/
theorem classify_not_host_url_function :
    (⟨some "cdn.example.com", none, some 1, some 1⟩ : Ad).image_host
        = (⟨some "cdn.example.com", none, some 300, some 250⟩ : Ad).image_host
    ∧ (⟨some "cdn.example.com", none, some 1, some 1⟩ : Ad).image_url
        = (⟨some "cdn.example.com", none, some 300, some 250⟩ : Ad).image_url
    ∧ classify ⟨some "cdn.example.com", none, some 1, some 1⟩ = "tracker"
    ∧ classify ⟨some "cdn.example.com", none, some 300, some 250⟩ = "asset" := by
  decide

/-- C2 amended: category is a pure function of `(imageHost, imageUrl, width,
height)`, and the host/URL dependence is case-insensitive — records agreeing
on width and height and on host/URL up to letter case get the same category. -/
theorem classify_deterministic (a b : Ad)
    (hh : a.image_host.map jsToLowerCase = b.image_host.map jsToLowerCase)
    (hu : a.image_url.map jsToLowerCase = b.image_url.map jsToLowerCase)
    (hw : a.width = b.width) (hht : a.height = b.height) :
    classify a = classify b := by
  have eh := getD_lower_congr _ _ hh
  have eu := getD_lower_congr _ _ hu
  unfold classify
  rw [eh, eu, hw, hht]

/-- C2 amended witness: case variants of the same host/URL with equal
dimensions are classified identically. -/
theorem classify_deterministic_witness :
    classify ⟨some "CDN.Example.com", some "https://CDN.Example.com/A.png",
              some 5, some 7⟩
      = classify ⟨some "cdn.example.com", some "https://cdn.example.com/a.png",
                  some 5, some 7⟩ :=
  classify_deterministic _ _ (by decide) (by decide) rfl rfl

/-- Relation `jsEndsWith` holds exactly when the haystack decomposes as some prefix
followed by the candidate suffix. -/
theorem jsEndsWith_iff (s t : String) :
    jsEndsWith s t = true ↔ ∃ p : List Char, s.data = p ++ t.data := by
  unfold jsEndsWith
  rw [List.isSuffixOf_iff_suffix]
  constructor
  · rintro ⟨p, hp⟩; exact ⟨p, hp.symm⟩
  · rintro ⟨p, hp⟩; exact ⟨p, hp.symm⟩

/-- Prepending the literal dot distributes over `String.data`. -/
theorem dot_append_data (t : String) : ("." ++ t).data = '.' :: t.data := by
  cases t; rfl

/-- The host-comparison boolean inside `isThirdParty` is symmetric in its two
hosts. -/
theorem thirdPartyCore_symm (ih ph : String) :
    (ih == ph || jsEndsWith ih ("." ++ ph) || jsEndsWith ph ("." ++ ih))
      = (ph == ih || jsEndsWith ph ("." ++ ih) || jsEndsWith ih ("." ++ ph)) := by
  cases hb : (ih == ph)
  · have : (ph == ih) = false := by
      simp only [beq_eq_false_iff_ne] at hb ⊢
      exact fun e => hb e.symm
    rw [this]
    simp only [Bool.false_or]
    exact Bool.or_comm _ _
  · have : (ph == ih) = true := by
      simp only [beq_iff_eq] at hb ⊢
      exact hb.symm
    rw [this]
    simp

/-! ## Claims about admission (`isAllowedAdImage`) -/

/-- C1 counterexample: a candidate whose content type is `text/html` (not
`image/*`) and whose URL has no image-like extension is still admitted,
because the URL matches the vendor path `tpc.googlesyndication.com/simgad/`
(rule 4 of the admission order applies regardless of content type). -/
theorem isAllowedAdImage_accepts_simgad_non_image :
    jsStartsWith (jsToLowerCase "text/html") "image/" = false
    ∧ looksLikeImageExt "https://tpc.googlesyndication.com/simgad/12345" = false
    ∧ isAllowedAdImage "https://tpc.googlesyndication.com/simgad/12345"
        (some "text/html") none = true := by
  decide

/-- C1 amended: a candidate whose content type does not start with `image/`,
whose URL lacks an image-like extension, and whose URL does not contain the
vendor path `tpc.googlesyndication.com/simgad/` (case-insensitively) is
rejected, for every frame URL. -/
theorem isAllowedAdImage_rejects_non_images (url : String) (ct fr : Option String)
    (h1 : jsStartsWith (jsToLowerCase (ct.getD "")) "image/" = false)
    (h2 : looksLikeImageExt url = false)
    (h3 : containsSubstr (jsToLowerCase url)
            "tpc.googlesyndication.com/simgad/" = false) :
    isAllowedAdImage url ct fr = false := by
  unfold isAllowedAdImage
  simp [h1, h2, h3]

/-- C1 amended witness: a JavaScript response from a known ad host is
rejected. -/
theorem isAllowedAdImage_rejects_non_images_witness :
    isAllowedAdImage "https://images.taboola.com/loader.js"
      (some "text/javascript") (some "https://trc.taboola.com/frame") = false :=
  isAllowedAdImage_rejects_non_images _ _ _ (by decide) (by decide) (by decide)

/-! ## Claims about `isThirdParty` -/

/-- C7: the third-party flag is `null` when either host is missing (falsy);
when both are present it is `false` exactly when, after stripping a leading
`www.` and lowercasing, the hosts are equal or one is a dot-separated
subdomain of the other (its characters are some prefix, a dot, then the other
host), and `true` otherwise; in particular `ads.example.com` is first-party to
`example.com` and `cdn.other.net` is third-party to it. -/
theorem isThirdParty_spec :
    (∀ a b : Option String,
      (a.getD "" = "" ∨ b.getD "" = "") → isThirdParty a b = none)
    ∧ (∀ x y : String, x ≠ "" → y ≠ "" →
        (isThirdParty (some x) (some y) = some false ↔
          (jsToLowerCase (stripWww x) = jsToLowerCase (stripWww y)
            ∨ (∃ p : List Char, (jsToLowerCase (stripWww x)).data
                  = p ++ '.' :: (jsToLowerCase (stripWww y)).data)
            ∨ (∃ p : List Char, (jsToLowerCase (stripWww y)).data
                  = p ++ '.' :: (jsToLowerCase (stripWww x)).data))))
    ∧ (∀ x y : String, x ≠ "" → y ≠ "" →
        (isThirdParty (some x) (some y) = some false
          ∨ isThirdParty (some x) (some y) = some true))
    ∧ isThirdParty (some "ads.example.com") (some "example.com") = some false
    ∧ isThirdParty (some "cdn.other.net") (some "example.com") = some true := by
  refine ⟨?_, ?_, ?_, by decide, by decide⟩
  · intro a b h
    rcases h with h | h <;> simp [isThirdParty, h]
  · intro x y hx hy
    simp only [isThirdParty, Option.getD_some]
    rw [if_neg (by simp [hx, hy])]
    simp only [Option.some.injEq, Bool.not_eq_false', Bool.or_eq_true,
      beq_iff_eq, jsEndsWith_iff, dot_append_data]
    exact or_assoc
  · intro x y hx hy
    simp only [isThirdParty, Option.getD_some]
    rw [if_neg (by simp [hx, hy])]
    rcases Bool.eq_false_or_eq_true
        (!(jsToLowerCase (stripWww x) == jsToLowerCase (stripWww y)
          || jsEndsWith (jsToLowerCase (stripWww x)) ("." ++ jsToLowerCase (stripWww y))
          || jsEndsWith (jsToLowerCase (stripWww y)) ("." ++ jsToLowerCase (stripWww x))))
      with h | h
    · rw [h]; exact Or.inr rfl
    · rw [h]; exact Or.inl rfl

/-- C7 witness: both nonempty-host cases of the specification are realized at
concrete hosts via the equivalence. -/
theorem isThirdParty_spec_witness :
    isThirdParty (some "ads.example.com") (some "example.com") = some false :=
  (isThirdParty_spec.2.1 "ads.example.com" "example.com"
      (by decide) (by decide)).mpr
    (Or.inr (Or.inl ⟨"ads".data, by decide⟩))

/-- C10: the third-party test is symmetric — the falsy test and the
equal-or-subdomain test are both checked in the two directions. -/
theorem isThirdParty_symm (a b : Option String) :
    isThirdParty a b = isThirdParty b a := by
  unfold isThirdParty
  cases hA : (a.getD "" == "") <;> cases hB : (b.getD "" == "") <;>
    simp only [hA, hB, Bool.or_self, Bool.or_true, Bool.true_or, Bool.false_or,
      if_true, if_false]
  exact congrArg some (congrArg Bool.not (thirdPartyCore_symm _ _))

/-- C10 witness: symmetry at a concrete subdomain pair. -/
theorem isThirdParty_symm_witness :
    isThirdParty (some "static.news.example.com") (some "example.com")
      = isThirdParty (some "example.com") (some "static.news.example.com") :=
  isThirdParty_symm (some "static.news.example.com") (some "example.com")

/-! ## Claims about host parsing -/

/-- C8: host extraction is total — on every input (missing, empty, or
unparsable URLs included) `hostFromUrl` yields `null` or a nonempty hostname
and `hostOf` yields `null` or a hostname; thrown URL-constructor errors are
the `Except.error` case of the parser, consumed by the functions' catch
branches, so no input escapes these two outcomes. -/
theorem host_parsing_total (u : Option String) :
    (hostFromUrl u = none ∨ ∃ h, hostFromUrl u = some h ∧ h ≠ "")
    ∧ (hostOf u = none ∨ ∃ h, hostOf u = some h) := by
  constructor
  · cases u with
    | none => exact Or.inl rfl
    | some s =>
      cases hse : (s == "")
      · cases hp : parseUrlHostname s with
        | error e => simp [hostFromUrl, hse, hp]
        | ok h =>
          cases hhe : (h == "")
          · exact Or.inr ⟨h, by simp [hostFromUrl, hse, hp, hhe],
              beq_eq_false_iff_ne.mp hhe⟩
          · simp [hostFromUrl, hse, hp, hhe]
      · simp [hostFromUrl, hse]
  · cases u with
    | none => exact Or.inl rfl
    | some s =>
      cases hp : parseUrlHostname s with
      | error e => simp [hostOf, hp]
      | ok h => exact Or.inr ⟨jsToLowerCase h, by simp [hostOf, hp]⟩

/-- C8 witness: concrete instances of the totality guarantee, at a string
with no parsable authority. -/
theorem host_parsing_total_witness :
    (hostFromUrl (some "no-scheme-here") = none
      ∨ ∃ h, hostFromUrl (some "no-scheme-here") = some h ∧ h ≠ "")
    ∧ (hostOf (some "no-scheme-here") = none
      ∨ ∃ h, hostOf (some "no-scheme-here") = some h) :=
  host_parsing_total (some "no-scheme-here")

/-! ## Claims about the `/scrape` route -/

/-- C9: a request whose `url` is missing or does not begin with `http://` or
`https://` (the route's anchored case-insensitive test) is answered with the
400 `InvalidInput` rejection, which carries no creatives array, and the
response does not depend on anything the render session would have emitted —
the session is never consulted. -/
theorem scrape_invalid_input (url : Option String)
    (n1 : List NetEvent) (d1 : List DomHint)
    (n2 : List NetEvent) (d2 : List DomHint)
    (h : ∀ u, url = some u → validScrapeUrl u = false) :
    handleScrape url n1 d1 = ScrapeResponse.invalidInput
    ∧ handleScrape url n1 d1 = handleScrape url n2 d2 := by
  cases url with
  | none => exact ⟨rfl, rfl⟩
  | some u =>
    have hv := h u rfl
    constructor <;> simp [handleScrape, hv]

/-- C9 witness: a non-HTTP URL is rejected (whatever the session would emit). -/
theorem scrape_invalid_input_witness :
    handleScrape (some "ftp://files.example.com") [] []
      = ScrapeResponse.invalidInput :=
  (scrape_invalid_input (some "ftp://files.example.com") [] [] [] []
    (fun u hu => by injection hu with h; rw [← h]; decide)).1

/-! ## Claims about the merge/dedup stage of `scrapeOnce` -/

/-- An admitted url starts with `http` (first guard of `isAllowedAdImage`). -/
theorem isAllowedAdImage_url_http (url : String) (ct fr : Option String)
    (h : isAllowedAdImage url ct fr = true) : jsStartsWith url "http" = true := by
  cases hx : jsStartsWith url "http"
  · unfold isAllowedAdImage at h
    rw [hx] at h
    simp at h
  · rfl

/-- A string starting with `http` is nonempty. -/
theorem ne_empty_of_http (url : String) (h : jsStartsWith url "http" = true) :
    url ≠ "" := by
  intro he
  subst he
  exact absurd h (by decide)

/-- Setting a key on the empty map appends the entry. -/
theorem mapSet_nil (k : String) (v : Creative) : mapSet [] k v = [(k, v)] := by
  simp [mapSet]

/-- Setting an existing key on a singleton map replaces the value in place. -/
theorem mapSet_single_hit (k : String) (v w : Creative) :
    mapSet [(k, v)] k w = [(k, w)] := by
  simp [mapSet]

/-- An admitted, size-passing network event is stored via `Map.set`. -/
theorem ingestNet_stores (m : List (String × Creative)) (e : NetEvent)
    (h1 : isAllowedAdImage e.url (some (jsToLowerCase e.contentType)) e.frameUrl = true)
    (h2 : withinSize e.width e.height MIN_W = true) :
    ingestNet m e = mapSet m e.url (netCreative e) := by
  simp [ingestNet, h1, h2]

/-- A DOM hint whose URL is already in the map never changes the map. -/
theorem ingestDom_existing (m : List (String × Creative)) (d : DomHint)
    (h : mapHas m d.image_url = true) : ingestDom m d = m := by
  unfold ingestDom
  rw [h]
  simp

/-- Function `uniqBy` keeps a single record with a nonempty key. -/
theorem uniqBy_singleton (c : Creative) (h : c.image_url ≠ "") :
    uniqBy [c] (fun c => c.image_url) = [c] := by
  have hne : (c.image_url == "") = false := beq_eq_false_iff_ne.mpr h
  simp [uniqBy, uniqByGo, hne]

/-- A session with one admitted, size-passing network event finalizes to
exactly that record. -/
theorem scrapeOnce_single_net (e : NetEvent)
    (h1 : isAllowedAdImage e.url (some (jsToLowerCase e.contentType)) e.frameUrl = true)
    (h2 : withinSize e.width e.height MIN_W = true) :
    scrapeOnce [e] [] = [netCreative e] := by
  have hu : e.url ≠ "" := ne_empty_of_http _ (isAllowedAdImage_url_http _ _ _ h1)
  have hne : (e.url == "") = false := beq_eq_false_iff_ne.mpr hu
  unfold scrapeOnce
  rw [List.foldl_cons, List.foldl_nil, ingestNet_stores [] e h1 h2, mapSet_nil]
  simp [uniqBy, uniqByGo, netCreative, hne]

/-- C3 counterexample: two network candidates with the same `imageUrl` where
only the first supplies dimensions (the second response body was not
decodable) finalize to a single record whose dimensions are `null` — the
dimensions of the candidate that had them are overwritten, not backfilled. -/
theorem dedup_overwrites_dimensions :
    (scrapeOnce
        [⟨"https://tpc.googlesyndication.com/simgad/1", "image/gif", none, none,
          some 300, some 250⟩,
         ⟨"https://tpc.googlesyndication.com/simgad/1", "image/gif", none, none,
          none, none⟩] []).map (fun c => (c.image_url, c.width, c.height))
      = [("https://tpc.googlesyndication.com/simgad/1", none, none)] := by
  decide

/-- C3 amended: two admitted candidates with the same `imageUrl` finalize to
exactly one record for that URL.  When the two candidates have different `via`
values — a network candidate and a DOM-hinted candidate — the record is the
network one, whose dimensions are the only ones a candidate can supply (DOM
hints carry none and never touch an existing entry).  When both are network
candidates the later candidate's record wins wholesale, so its dimensions
replace the earlier ones rather than backfilling only missing ones. -/
theorem dedup_single_record (e1 e2 : NetEvent) (d : DomHint)
    (h1 : isAllowedAdImage e1.url (some (jsToLowerCase e1.contentType)) e1.frameUrl = true)
    (hs1 : withinSize e1.width e1.height MIN_W = true)
    (h2 : isAllowedAdImage e2.url (some (jsToLowerCase e2.contentType)) e2.frameUrl = true)
    (hs2 : withinSize e2.width e2.height MIN_W = true)
    (hurl : e2.url = e1.url) (hd : d.image_url = e1.url) :
    scrapeOnce [e1] [d] = [netCreative e1]
    ∧ scrapeOnce [e1, e2] [] = [netCreative e2] := by
  have hu1 : e1.url ≠ "" := ne_empty_of_http _ (isAllowedAdImage_url_http _ _ _ h1)
  have hne1 : (e1.url == "") = false := beq_eq_false_iff_ne.mpr hu1
  constructor
  · have hhas : mapHas [(e1.url, netCreative e1)] d.image_url = true := by
      rw [hd]; simp [mapHas]
    unfold scrapeOnce
    simp only [List.foldl_cons, List.foldl_nil]
    rw [ingestNet_stores [] e1 h1 hs1, mapSet_nil, ingestDom_existing _ _ hhas]
    simp [uniqBy, uniqByGo, netCreative, hne1]
  · unfold scrapeOnce
    simp only [List.foldl_cons, List.foldl_nil]
    rw [ingestNet_stores [] e1 h1 hs1, mapSet_nil,
      ingestNet_stores _ e2 h2 hs2, hurl, mapSet_single_hit]
    simp [uniqBy, uniqByGo, netCreative, hurl, hne1]

/-- C3 amended witness: a network candidate with dimensions merged with a
DOM-hinted duplicate keeps the network dimensions, and a second network
candidate for the same URL replaces the first record. -/
theorem dedup_single_record_witness :
    scrapeOnce [⟨"https://images.taboola.com/x.png", "image/png", none, none,
                 some 300, some 250⟩]
        [⟨"https://images.taboola.com/x.png", "dom:hint", none, none,
          some "dom:banner"⟩]
      = [netCreative ⟨"https://images.taboola.com/x.png", "image/png", none,
                      none, some 300, some 250⟩]
    ∧ scrapeOnce [⟨"https://images.taboola.com/x.png", "image/png", none, none,
                   some 300, some 250⟩,
                  ⟨"https://images.taboola.com/x.png", "image/png", none, none,
                   none, none⟩] []
      = [netCreative ⟨"https://images.taboola.com/x.png", "image/png", none,
                      none, none, none⟩] :=
  dedup_single_record
    ⟨"https://images.taboola.com/x.png", "image/png", none, none, some 300, some 250⟩
    ⟨"https://images.taboola.com/x.png", "image/png", none, none, none, none⟩
    ⟨"https://images.taboola.com/x.png", "dom:hint", none, none, some "dom:banner"⟩
    (by decide) (by decide) (by decide) (by decide) rfl rfl

/-- C6: a network candidate whose resolved width and height are both known
with either below 30 never enters the dedup map (and a session consisting of
it finalizes empty); a candidate with an unknown dimension passes the size
filter, and — when admitted — is retained in the finalized output, as is any
candidate with both dimensions at least 30. -/
theorem minSize_admission_filter :
    (∀ (m : List (String × Creative)) (e : NetEvent) (w h : Int),
        e.width = some w → e.height = some h → (w < 30 ∨ h < 30) →
        ingestNet m e = m)
    ∧ (∀ (e : NetEvent) (w h : Int),
        e.width = some w → e.height = some h → (w < 30 ∨ h < 30) →
        scrapeOnce [e] [] = [])
    ∧ (∀ e : NetEvent, e.width = none ∨ e.height = none →
        withinSize e.width e.height MIN_W = true)
    ∧ (∀ e : NetEvent, (e.width = none ∨ e.height = none) →
        isAllowedAdImage e.url (some (jsToLowerCase e.contentType)) e.frameUrl = true →
        scrapeOnce [e] [] = [netCreative e])
    ∧ (∀ (e : NetEvent) (w h : Int),
        e.width = some w → e.height = some h → 30 ≤ w → 30 ≤ h →
        isAllowedAdImage e.url (some (jsToLowerCase e.contentType)) e.frameUrl = true →
        scrapeOnce [e] [] = [netCreative e]) := by
  have hsmall : ∀ (e : NetEvent) (w h : Int),
      e.width = some w → e.height = some h → (w < 30 ∨ h < 30) →
      withinSize e.width e.height MIN_W = false := by
    intro e w h hw hh hlt
    rw [hw, hh]
    rcases hlt with hl | hl
    · have : decide ((30 : Int) ≤ w) = false := decide_eq_false (by omega)
      simp [withinSize, MIN_W, this]
    · have : decide ((30 : Int) ≤ h) = false := decide_eq_false (by omega)
      simp [withinSize, MIN_W, this]
  have hings : ∀ (m : List (String × Creative)) (e : NetEvent) (w h : Int),
      e.width = some w → e.height = some h → (w < 30 ∨ h < 30) →
      ingestNet m e = m := by
    intro m e w h hw hh hlt
    simp [ingestNet, hsmall e w h hw hh hlt]
  have hnone : ∀ e : NetEvent, e.width = none ∨ e.height = none →
      withinSize e.width e.height MIN_W = true := by
    intro e h
    rcases h with h | h
    · rw [h]; cases e.height <;> rfl
    · rw [h]; cases e.width <;> rfl
  refine ⟨hings, ?_, hnone, ?_, ?_⟩
  · intro e w h hw hh hlt
    unfold scrapeOnce
    rw [List.foldl_cons, List.foldl_nil, hings [] e w h hw hh hlt]
    rfl
  · intro e h hadm
    exact scrapeOnce_single_net e hadm (hnone e h)
  · intro e w h hw hh h30w h30h hadm
    refine scrapeOnce_single_net e hadm ?_
    rw [hw, hh]
    have dw : decide ((30 : Int) ≤ w) = true := decide_eq_true h30w
    have dh : decide ((30 : Int) ≤ h) = true := decide_eq_true h30h
    simp [withinSize, MIN_W, dw, dh]

/-- C6 witness: a decoded 10×10 candidate is dropped and finalizes to an
empty result, while a 40×40 candidate from the same host is retained. -/
theorem minSize_admission_filter_witness :
    scrapeOnce [⟨"https://images.taboola.com/t.png", "image/png", none, none,
                 some 10, some 10⟩] [] = []
    ∧ scrapeOnce [⟨"https://images.taboola.com/b.png", "image/png", none, none,
                   some 40, some 40⟩] []
      = [netCreative ⟨"https://images.taboola.com/b.png", "image/png", none,
                      none, some 40, some 40⟩] :=
  ⟨minSize_admission_filter.2.1 _ 10 10 rfl rfl (Or.inl (by decide)),
   minSize_admission_filter.2.2.2.2 _ 40 40 rfl rfl (by decide) (by decide)
     (by decide)⟩
